import Mathlib

/-!
Verification development for the UV-atlas packing engine
(`src/operator_func/uv.py`): the `UvBox` / `UvMcCube` primitives,
the `plan_uv` packer and the `get_uv_mc_cubes` grouping adapter,
shallowly embedded as executable Lean functions.

Python object identity is modelled with an explicit store
(`Store : List UvMcCube`) addressed by `BoxId`; in-place mutation
becomes functional update of the store.  Integer coordinates are `Int`.
The unspecified iteration order of Python's `list(set(boxes))` is
modelled as first-occurrence deduplication.
-/

/-- The four anchor corners of a suggestion (`UvCorner` in the source). -/
inductive UvCorner where
  | TOP_RIGHT
  | TOP_LEFT
  | BOTTOM_RIGHT
  | BOTTOM_LEFT
deriving Repr, DecidableEq, Inhabited

/-- A placement suggestion: candidate position plus anchor corner. -/
abbrev Suggestion := (Int × Int) × UvCorner

/-- `UvBox`: an axis-aligned rectangle with a size, a position `uv`
and the `is_mapped` flag, exactly the fields of the Python class. -/
structure UvBox where
  size : Int × Int
  uv : Int × Int
  is_mapped : Bool
deriving Repr, DecidableEq, Inhabited

/-- `UvBox.__init__`: `uv=None` yields position `(0,0)` and
`is_mapped=False`; an explicit `uv` yields `is_mapped=True`. -/
def mkUvBox (size : Int × Int) (uv : Option (Int × Int)) : UvBox :=
  match uv with
  | none => { size := size, uv := (0, 0), is_mapped := false }
  | some p => { size := size, uv := p, is_mapped := true }

/-- `UvBox.collides`: half-open overlap test on both axes
(strict inequalities, touching edges do not collide). -/
def UvBox.collides (a b : UvBox) : Bool :=
  decide (a.uv.1 < b.uv.1 + b.size.1) &&
  decide (b.uv.1 < a.uv.1 + a.size.1) &&
  decide (a.uv.2 < b.uv.2 + b.size.2) &&
  decide (b.uv.2 < a.uv.2 + a.size.2)

/-- `UvBox.suggest_positions`: the eight adjacent candidate positions,
in source order. -/
def UvBox.suggest_positions (b : UvBox) : List Suggestion :=
  let ss : Int × Int := (b.size.1 - 1, b.size.2 - 1)
  let uv := b.uv
  [ ((uv.1, uv.2 - 1), UvCorner.BOTTOM_LEFT),
    ((uv.1 + ss.1, uv.2 - 1), UvCorner.BOTTOM_RIGHT),
    ((uv.1 + ss.1 + 1, uv.2), UvCorner.TOP_LEFT),
    ((uv.1 + ss.1 + 1, uv.2 + ss.2), UvCorner.BOTTOM_LEFT),
    ((uv.1 + ss.1, uv.2 + ss.2 + 1), UvCorner.TOP_RIGHT),
    ((uv.1, uv.2 + ss.2 + 1), UvCorner.TOP_LEFT),
    ((uv.1 - 1, uv.2 + ss.2), UvCorner.BOTTOM_RIGHT),
    ((uv.1 - 1, uv.2), UvCorner.TOP_RIGHT) ]

/-- `UvBox.apply_suggestion`: reposition so the named corner of the box
lands on the suggested point. -/
def UvBox.apply_suggestion (b : UvBox) (s : Suggestion) : UvBox :=
  let ss : Int × Int := (b.size.1 - 1, b.size.2 - 1)
  match s.2 with
  | UvCorner.TOP_LEFT => { b with uv := s.1 }
  | UvCorner.TOP_RIGHT => { b with uv := (s.1.1 - ss.1, s.1.2) }
  | UvCorner.BOTTOM_LEFT => { b with uv := (s.1.1, s.1.2 - ss.2) }
  | UvCorner.BOTTOM_RIGHT => { b with uv := (s.1.1 - ss.1, s.1.2 - ss.2) }

/-- `UvMcCube`: the composite cube.  The six sub-rectangles are fully
determined by `width`, `depth`, `height` and `uv` (the Python `uv`
setter recomputes them on every move), so they are modelled as derived
functions rather than stored fields. -/
structure UvMcCube where
  width : Int
  depth : Int
  height : Int
  uv : Int × Int
  is_mapped : Bool
deriving Repr, DecidableEq, Inhabited

/-- `UvMcCube.__init__`'s bounding size `(2*depth + 2*width, height + depth)`. -/
def UvMcCube.size (c : UvMcCube) : Int × Int :=
  (2 * c.depth + 2 * c.width, c.height + c.depth)

/-- `UvMcCube.__init__` with optional explicit `uv` (via `UvBox.__init__`). -/
def mkUvMcCube (width depth height : Int) (uv : Option (Int × Int)) : UvMcCube :=
  match uv with
  | none =>
    { width := width, depth := depth, height := height,
      uv := (0, 0), is_mapped := false }
  | some p =>
    { width := width, depth := depth, height := height,
      uv := p, is_mapped := true }

/-- The `right` sub-rectangle, as repositioned by the `uv` setter. -/
def UvMcCube.right (c : UvMcCube) : UvBox :=
  { size := (c.depth, c.height), uv := (c.uv.1, c.uv.2 + c.depth),
    is_mapped := true }

/-- The `front` sub-rectangle. -/
def UvMcCube.front (c : UvMcCube) : UvBox :=
  { size := (c.width, c.height), uv := (c.uv.1 + c.depth, c.uv.2 + c.depth),
    is_mapped := true }

/-- The `left` sub-rectangle. -/
def UvMcCube.left (c : UvMcCube) : UvBox :=
  { size := (c.depth, c.height),
    uv := (c.uv.1 + c.depth + c.width, c.uv.2 + c.depth), is_mapped := true }

/-- The `back` sub-rectangle. -/
def UvMcCube.back (c : UvMcCube) : UvBox :=
  { size := (c.width, c.height),
    uv := (c.uv.1 + 2 * c.depth + c.width, c.uv.2 + c.depth),
    is_mapped := true }

/-- The `top` sub-rectangle. -/
def UvMcCube.top (c : UvMcCube) : UvBox :=
  { size := (c.width, c.depth), uv := (c.uv.1 + c.depth, c.uv.2),
    is_mapped := true }

/-- The `bottom` sub-rectangle. -/
def UvMcCube.bottom (c : UvMcCube) : UvBox :=
  { size := (c.width, c.depth), uv := (c.uv.1 + c.depth + c.width, c.uv.2),
    is_mapped := true }

/-- The cube viewed as its bounding `UvBox` (the inherited fields). -/
def UvMcCube.toBox (c : UvMcCube) : UvBox :=
  { size := c.size, uv := c.uv, is_mapped := c.is_mapped }

/-- `UvMcCube.collides`: tests only the *caller's* six sub-rectangles
against the argument box (which for a cube argument is its bounding
rectangle, via the inherited `uv`/`size` fields). -/
def UvMcCube.collides (c : UvMcCube) (other : UvBox) : Bool :=
  [c.right, c.front, c.left, c.back, c.top, c.bottom].any
    (fun r => r.collides other)

/-- Keep the entries of `l` whose index is in `idxs` (the Python
`[s for i, s in enumerate(l) if i in idxs]`). -/
def keepIdxs (idxs : List Nat) (l : List Suggestion) : List Suggestion :=
  (l.enum.filter (fun p => decide (p.1 ∈ idxs))).map (fun p => p.2)

/-- `UvMcCube.suggest_positions`: curated subset of the sub-rectangles'
suggestions (indices `[0,5,6]` of right, `[0,6,7]` of top, `[1,2,3]` of
bottom, `[1,3,4]` of back). -/
def UvMcCube.suggest_positions (c : UvMcCube) : List Suggestion :=
  keepIdxs [0, 5, 6] c.right.suggest_positions ++
  keepIdxs [0, 6, 7] c.top.suggest_positions ++
  keepIdxs [1, 2, 3] c.bottom.suggest_positions ++
  keepIdxs [1, 3, 4] c.back.suggest_positions

/-- `UvBox.apply_suggestion` lifted to the cube: the Python call sets
`self.uv` through the overriding setter, so only `uv` changes. -/
def UvMcCube.apply_suggestion (c : UvMcCube) (s : Suggestion) : UvMcCube :=
  let ss : Int × Int := (c.size.1 - 1, c.size.2 - 1)
  match s.2 with
  | UvCorner.TOP_LEFT => { c with uv := s.1 }
  | UvCorner.TOP_RIGHT => { c with uv := (s.1.1 - ss.1, s.1.2) }
  | UvCorner.BOTTOM_LEFT => { c with uv := (s.1.1, s.1.2 - ss.2) }
  | UvCorner.BOTTOM_RIGHT => { c with uv := (s.1.1 - ss.1, s.1.2 - ss.2) }

/-- The mutable heap of cube objects: Python object identity becomes a
store index. -/
abbrev Store := List UvMcCube

/-- Identity of one cube object. -/
abbrev BoxId := Nat

/-- Dereference a box identity (out-of-range reads a default; real runs
only use valid identities). -/
def getBox (store : Store) (i : BoxId) : UvMcCube :=
  store.getD i default

/-- `_is_out_of_bounds` from `plan_uv`: note the strict `>` on both
`uv[0] + size[0] > width` and the height test. -/
def is_out_of_bounds (width : Int) (height : Option Int)
    (uv : Int × Int) (size : Int × Int) : Bool :=
  decide (uv.1 < 0) || decide (uv.2 < 0) ||
  decide (uv.1 + size.1 > width) ||
  (match height with
   | none => false
   | some hv => decide (uv.2 + size.2 > hv))

/-- The run-scoped state of one `plan_uv` call: the store plus the
`suggestions` queue, the `authors` list and the `mapped_boxes` list. -/
structure PlanState where
  store : Store
  suggestions : List Suggestion
  authors : List BoxId
  mapped : List BoxId
deriving Repr, DecidableEq, Inhabited

/-- The inner `while` of `plan_uv`, placing one box `bi`.  `i` is the
index of the suggestion about to be tried (`suggestion_i + 1`), `fuel`
a structural bound on iterations (chosen large enough by the caller;
`none` means fuel ran out, which never happens in real runs).
Returns `some (true, st)` on acceptance and `some (false, st)` when the
queue is exhausted (the `else` of the `while`). -/
def scanBox (w : Int) (h : Option Int) (bi : BoxId) :
    Nat → PlanState → Nat → Option (Bool × PlanState)
  | 0, _, _ => none
  | fuel + 1, st, i =>
    if hi : i < st.suggestions.length then
      if is_out_of_bounds w h (st.suggestions.get ⟨i, hi⟩).1 (0, 0) then
        scanBox w h bi fuel
          { st with
            store := st.store.set bi
              ((getBox st.store bi).apply_suggestion (st.suggestions.get ⟨i, hi⟩)),
            suggestions := st.suggestions.eraseIdx i } i
      else if is_out_of_bounds w h
          ((getBox st.store bi).apply_suggestion (st.suggestions.get ⟨i, hi⟩)).uv
          ((getBox st.store bi).apply_suggestion (st.suggestions.get ⟨i, hi⟩)).size then
        scanBox w h bi fuel
          { st with
            store := st.store.set bi
              ((getBox st.store bi).apply_suggestion (st.suggestions.get ⟨i, hi⟩)) }
          (i + 1)
      else
        match st.mapped.find? (fun o =>
            ((getBox st.store bi).apply_suggestion (st.suggestions.get ⟨i, hi⟩)).collides
              (getBox (st.store.set bi
                ((getBox st.store bi).apply_suggestion (st.suggestions.get ⟨i, hi⟩)))
                o).toBox) with
        | some o =>
          if o ∈ st.authors then
            scanBox w h bi fuel
              { st with
                store := st.store.set bi
                  ((getBox st.store bi).apply_suggestion (st.suggestions.get ⟨i, hi⟩)) }
              (i + 1)
          else
            scanBox w h bi fuel
              { st with
                store := st.store.set bi
                  ((getBox st.store bi).apply_suggestion (st.suggestions.get ⟨i, hi⟩)),
                suggestions := st.suggestions ++
                  (getBox (st.store.set bi
                    ((getBox st.store bi).apply_suggestion (st.suggestions.get ⟨i, hi⟩)))
                    o).suggest_positions,
                authors := st.authors ++ [o] } (i + 1)
        | none =>
          some (true,
            { store := st.store.set bi
                { (getBox st.store bi).apply_suggestion (st.suggestions.get ⟨i, hi⟩) with
                  is_mapped := true },
              suggestions :=
                (st.suggestions ++
                  ({ (getBox st.store bi).apply_suggestion (st.suggestions.get ⟨i, hi⟩) with
                     is_mapped := true } : UvMcCube).suggest_positions
                ).eraseIdx i,
              authors := st.authors,
              mapped := st.mapped ++ [bi] })
    else
      some (false,
        { st with store :=
            st.store.set bi { getBox st.store bi with uv := (0, 0) } })

/-- Fuel that comfortably bounds one inner scan: every iteration either
deletes a queue entry or advances the index, the queue only grows by at
most 12 entries per newly discovered author, and authors are drawn from
`mapped` without repetition. -/
def scanFuel (st : PlanState) : Nat :=
  2 * st.suggestions.length + 26 * st.mapped.length + 26

/-- The outer `for box in unmapped_boxes` loop of `plan_uv`. -/
def planLoop (w : Int) (h : Option Int) :
    List BoxId → PlanState → Option (Bool × PlanState)
  | [], st => some (true, st)
  | bi :: rest, st =>
    match scanBox w h bi (scanFuel st) st 0 with
    | none => none
    | some (false, st1) => some (false, st1)
    | some (true, st1) => planLoop w h rest st1

/-- First-occurrence deduplication: the model of `list(set(boxes))`
(Python's set is identity-based for these objects; its iteration order
is fixed here to first occurrence). -/
def dedupFirst : List BoxId → List BoxId
  | [] => []
  | x :: xs => x :: (dedupFirst xs).filter (fun y => decide (y ≠ x))

/-- Stable insertion for the descending-by-bounding-width sort
(`boxes.sort(key=lambda box: box.size[0], reverse=True)`). -/
def insertDesc (store : Store) (b : BoxId) : List BoxId → List BoxId
  | [] => [b]
  | x :: xs =>
    if (getBox store x).size.1 < (getBox store b).size.1 then
      b :: x :: xs
    else
      x :: insertDesc store b xs

/-- Stable sort, descending by bounding width. -/
def sortBoxes (store : Store) (ids : List BoxId) : List BoxId :=
  ids.foldl (fun acc b => insertDesc store b acc) []

/-- The processing order of `plan_uv`: dedup then stable descending sort. -/
def plan_order (store : Store) (ids : List BoxId) : List BoxId :=
  sortBoxes store (dedupFirst ids)

/-- The `mapped_boxes` initial partition, in processing order. -/
def mappedInit (store : Store) (ids : List BoxId) : List BoxId :=
  (plan_order store ids).filter (fun b => (getBox store b).is_mapped)

/-- The `unmapped_boxes` partition, in processing order. -/
def unmappedInit (store : Store) (ids : List BoxId) : List BoxId :=
  (plan_order store ids).filter (fun b => !(getBox store b).is_mapped)

/-- `plan_uv(boxes, width, height=None)`.  Returns the success boolean
together with the final run state (whose `store` carries the mutated
boxes); `none` only on fuel exhaustion, which real runs never reach. -/
def plan_uv (store : Store) (ids : List BoxId) (w : Int) (h : Option Int) :
    Option (Bool × PlanState) :=
  planLoop w h (unmappedInit store ids)
    { store := store,
      suggestions := [((0, 0), UvCorner.TOP_LEFT)],
      authors := [],
      mapped := mappedInit store ids }

/-- One shape descriptor consumed by `get_uv_mc_cubes`: the object name,
the rounded `(width, height, depth)` scales, the optional `mc_uv_group`
custom property and the optional `mc_uv` pre-existing placement. -/
structure CubeDesc where
  name : String
  width : Int
  depth : Int
  height : Int
  group_key : Option String
  existing_uv : Option (Int × Int)
deriving Repr, DecidableEq, Inhabited

/-- The `uv_groups` dictionary, flattened to an association list keyed
by `(group, (width, depth, height))`; lookups and insertions behave as
the nested `defaultdict` of `_UvGroup`s. -/
abbrev Groups := List ((String × (Int × Int × Int)) × BoxId)

/-- `uv_groups[g].items.get((w, d, h))`. -/
def lookupGroup (groups : Groups) (g : String) (dims : Int × Int × Int) :
    Option BoxId :=
  (groups.find? (fun p => decide (p.1 = (g, dims)))).map (fun p => p.2)

/-- The accumulating state of one `get_uv_mc_cubes` call: freshly
created cubes live in `store`, `result` collects `(name, id)` pairs in
iteration order, `groups` is the `uv_groups` registry. -/
structure GroupState where
  store : Store
  result : List (String × BoxId)
  groups : Groups
deriving Repr, DecidableEq, Inhabited

/-- The body of the `for obj in objects` loop of `get_uv_mc_cubes`. -/
def processDesc (read_existing_uvs : Bool) (st : GroupState)
    (d : CubeDesc) : GroupState :=
  if read_existing_uvs && d.existing_uv.isSome then
    { st with
      store := st.store ++ [mkUvMcCube d.width d.depth d.height d.existing_uv],
      result := st.result ++ [(d.name, st.store.length)] }
  else
    match d.group_key with
    | some g =>
      match lookupGroup st.groups g (d.width, d.depth, d.height) with
      | some id => { st with result := st.result ++ [(d.name, id)] }
      | none =>
        { store := st.store ++ [mkUvMcCube d.width d.depth d.height none],
          result := st.result ++ [(d.name, st.store.length)],
          groups := st.groups ++
            [((g, (d.width, d.depth, d.height)), st.store.length)] }
    | none =>
      { st with
        store := st.store ++ [mkUvMcCube d.width d.depth d.height none],
        result := st.result ++ [(d.name, st.store.length)] }

/-- `get_uv_mc_cubes(objects, read_existing_uvs)` over descriptors. -/
def get_uv_mc_cubes (read_existing_uvs : Bool) (descs : List CubeDesc) :
    GroupState :=
  descs.foldl (processDesc read_existing_uvs) ⟨[], [], []⟩

/-- Extract the final run state from a `plan_uv` result. -/
def planStateOf (r : Option (Bool × PlanState)) : PlanState :=
  match r with
  | some p => p.2
  | none => default

/-- The cell coordinate of a named corner of a box, as the spec reads
it: the top-left cell is `(u, v)`, right/bottom corners are offset by
the size minus one.  (Stated from the spec's words, to be compared with
`apply_suggestion` from the source.) -/
def cornerCell (b : UvBox) (c : UvCorner) : Int × Int :=
  match c with
  | UvCorner.TOP_LEFT => (b.uv.1, b.uv.2)
  | UvCorner.TOP_RIGHT => (b.uv.1 + b.size.1 - 1, b.uv.2)
  | UvCorner.BOTTOM_LEFT => (b.uv.1, b.uv.2 + b.size.2 - 1)
  | UvCorner.BOTTOM_RIGHT =>
    (b.uv.1 + b.size.1 - 1, b.uv.2 + b.size.2 - 1)

/-! ### Concrete example inputs used to instantiate the theorems -/

/-- A pre-mapped obstacle plus two free cubes: a wide flat cube and a
tall narrow cube whose bounding boxes can overlap asymmetrically. -/
def exStoreA : Store :=
  [⟨1, 1, 2, (2, 6), true⟩, ⟨10, 1, 1, (0, 0), false⟩,
   ⟨1, 4, 10, (0, 0), false⟩]

/-- One free unit cube. -/
def exStoreB : Store := [⟨1, 1, 1, (0, 0), false⟩]

/-- One free cube of bounding width `10`. -/
def exStoreC : Store := [⟨4, 1, 1, (0, 0), false⟩]

/-- One pre-mapped cube fixed at `(3, 3)`. -/
def exStoreD : Store := [⟨1, 1, 1, (3, 3), true⟩]

/-- A scan state whose queue holds one suggestion anchored at `u = 8`. -/
def exScanSt : PlanState :=
  { store := exStoreC, suggestions := [((8, 0), UvCorner.TOP_LEFT)],
    authors := [], mapped := [] }

/-- Two descriptors with equal group key and size, the first carrying a
pre-existing UV. -/
def exDescsA : List CubeDesc :=
  [⟨"a", 1, 1, 1, some "g", some (5, 5)⟩, ⟨"b", 1, 1, 1, some "g", none⟩]

/-- Two descriptors with equal group key and size and no pre-existing UVs. -/
def exDescsB : List CubeDesc :=
  [⟨"a", 3, 3, 3, some "A", none⟩, ⟨"b", 3, 3, 3, some "A", none⟩]

/-! ### Basic facts about the store and the primitives -/

lemma getBox_set_ne (store : Store) (bi : BoxId) (box : UvMcCube)
    (j : BoxId) (h : j ≠ bi) :
    getBox (store.set bi box) j = getBox store j := by
  simp [getBox, List.getD_eq_getElem?_getD, List.getElem?_set_ne (Ne.symm h)]

lemma getBox_set_self (store : Store) (bi : BoxId) (box : UvMcCube)
    (h : bi < store.length) :
    getBox (store.set bi box) bi = box := by
  simp [getBox, List.getD_eq_getElem?_getD, List.getElem?_set_self h]

/-- `collides` reads only the geometry, never the `is_mapped` flag. -/
lemma UvMcCube.collides_set_mapped (c : UvMcCube) (b : Bool) (x : UvBox) :
    ({ c with is_mapped := b } : UvMcCube).collides x = c.collides x := rfl

lemma UvMcCube.size_set_mapped (c : UvMcCube) (b : Bool) :
    ({ c with is_mapped := b } : UvMcCube).size = c.size := rfl

/-- The meaning of a passed bounds test, with the source's strict `>`. -/
lemma is_out_of_bounds_eq_false_iff (w : Int) (h : Option Int)
    (uv size : Int × Int) :
    is_out_of_bounds w h uv size = false ↔
      (0 ≤ uv.1 ∧ 0 ≤ uv.2 ∧ uv.1 + size.1 ≤ w ∧
        ∀ hv, h = some hv → uv.2 + size.2 ≤ hv) := by
  cases h with
  | none =>
    simp only [is_out_of_bounds, Bool.or_eq_false_iff, decide_eq_false_iff_not]
    constructor
    · rintro ⟨⟨⟨h1, h2⟩, h3⟩, -⟩
      exact ⟨by omega, by omega, by omega, by intro hv hc; cases hc⟩
    · rintro ⟨h1, h2, h3, -⟩
      exact ⟨⟨⟨by omega, by omega⟩, by omega⟩, trivial⟩
  | some hv =>
    simp only [is_out_of_bounds, Bool.or_eq_false_iff, decide_eq_false_iff_not]
    constructor
    · rintro ⟨⟨⟨h1, h2⟩, h3⟩, h4⟩
      refine ⟨by omega, by omega, by omega, ?_⟩
      intro hv' hc
      cases hc
      omega
    · rintro ⟨h1, h2, h3, h4⟩
      exact ⟨⟨⟨by omega, by omega⟩, by omega⟩, by have := h4 hv rfl; omega⟩

/-! ### Frame properties of the inner scan -/

/-- One inner scan only ever writes the store at its own box `bi`,
and never changes the store's length. -/
lemma scanBox_frame (w : Int) (h : Option Int) (bi : BoxId) :
    ∀ (fuel : Nat) (st : PlanState) (i : Nat) (r : Bool) (st' : PlanState),
    scanBox w h bi fuel st i = some (r, st') →
    st'.store.length = st.store.length ∧
    (∀ j, j ≠ bi → getBox st'.store j = getBox st.store j) := by
  intro fuel
  induction fuel with
  | zero =>
    intro st i r st' heq
    simp [scanBox] at heq
  | succ n ih =>
    intro st i r st' heq
    rw [scanBox] at heq
    split at heq
    · split at heq
      · obtain ⟨hl, hf⟩ := ih _ _ _ _ heq
        refine ⟨by simpa [List.length_set] using hl, ?_⟩
        intro j hj
        rw [hf j hj]
        exact getBox_set_ne _ _ _ _ hj
      · split at heq
        · obtain ⟨hl, hf⟩ := ih _ _ _ _ heq
          refine ⟨by simpa [List.length_set] using hl, ?_⟩
          intro j hj
          rw [hf j hj]
          exact getBox_set_ne _ _ _ _ hj
        · split at heq
          · split at heq
            · obtain ⟨hl, hf⟩ := ih _ _ _ _ heq
              refine ⟨by simpa [List.length_set] using hl, ?_⟩
              intro j hj
              rw [hf j hj]
              exact getBox_set_ne _ _ _ _ hj
            · obtain ⟨hl, hf⟩ := ih _ _ _ _ heq
              refine ⟨by simpa [List.length_set] using hl, ?_⟩
              intro j hj
              rw [hf j hj]
              exact getBox_set_ne _ _ _ _ hj
          · simp only [Option.some.injEq, Prod.mk.injEq] at heq
            obtain ⟨-, hst⟩ := heq
            subst hst
            refine ⟨by simp [List.length_set], ?_⟩
            intro j hj
            exact getBox_set_ne _ _ _ _ hj
    · simp only [Option.some.injEq, Prod.mk.injEq] at heq
      obtain ⟨-, hst⟩ := heq
      subst hst
      refine ⟨by simp [List.length_set], ?_⟩
      intro j hj
      exact getBox_set_ne _ _ _ _ hj

lemma UvMcCube.uv_set_mapped (c : UvMcCube) (b : Bool) :
    ({ c with is_mapped := b } : UvMcCube).uv = c.uv := rfl

/-- What one successful inner scan guarantees: `bi` is appended to
`mapped`, ends up marked, inside the atlas bounds, and colliding with
no box that was mapped when the scan started. -/
lemma scanBox_true_spec (w : Int) (h : Option Int) (bi : BoxId) :
    ∀ (fuel : Nat) (st : PlanState) (i : Nat) (st' : PlanState),
    bi ∉ st.mapped → bi < st.store.length →
    scanBox w h bi fuel st i = some (true, st') →
    st'.mapped = st.mapped ++ [bi] ∧
    (getBox st'.store bi).is_mapped = true ∧
    is_out_of_bounds w h (getBox st'.store bi).uv (getBox st'.store bi).size
      = false ∧
    (∀ o ∈ st.mapped,
      (getBox st'.store bi).collides (getBox st'.store o).toBox = false) := by
  intro fuel
  induction fuel with
  | zero =>
    intro st i st' _ _ heq
    simp [scanBox] at heq
  | succ n ih =>
    intro st i st' hnm hlen heq
    rw [scanBox] at heq
    split at heq
    · split at heq
      · have h0 := ih _ _ _ (by exact hnm)
          (by simpa [List.length_set] using hlen) heq
        exact h0
      · rename_i hg1
        split at heq
        · have h0 := ih _ _ _ (by exact hnm)
            (by simpa [List.length_set] using hlen) heq
          exact h0
        · rename_i hg2
          split at heq
          · split at heq
            · have h0 := ih _ _ _ (by exact hnm)
                (by simpa [List.length_set] using hlen) heq
              exact h0
            · have h0 := ih _ _ _ (by exact hnm)
                (by simpa [List.length_set] using hlen) heq
              exact h0
          · rename_i hfind
            simp only [Option.some.injEq, Prod.mk.injEq] at heq
            obtain ⟨-, hst⟩ := heq
            subst hst
            refine ⟨rfl, ?_, ?_, ?_⟩
            · rw [getBox_set_self _ _ _ hlen]
            · rw [getBox_set_self _ _ _ hlen, UvMcCube.uv_set_mapped,
                UvMcCube.size_set_mapped]
              exact Bool.eq_false_iff.mpr hg2
            · intro o ho
              have hne : o ≠ bi := fun hc => hnm (hc ▸ ho)
              have h1 := List.find?_eq_none.mp hfind o ho
              rw [getBox_set_ne _ _ _ _ hne] at h1
              rw [getBox_set_self _ _ _ hlen, getBox_set_ne _ _ _ _ hne,
                UvMcCube.collides_set_mapped]
              exact Bool.eq_false_iff.mpr h1
    · simp at heq

/-- What an exhausted inner scan guarantees: `mapped` is untouched and
the failed box is reset to `(0, 0)` (the `else` clause of the `while`). -/
lemma scanBox_false_spec (w : Int) (h : Option Int) (bi : BoxId) :
    ∀ (fuel : Nat) (st : PlanState) (i : Nat) (st' : PlanState),
    bi < st.store.length →
    scanBox w h bi fuel st i = some (false, st') →
    st'.mapped = st.mapped ∧ (getBox st'.store bi).uv = (0, 0) := by
  intro fuel
  induction fuel with
  | zero =>
    intro st i st' _ heq
    simp [scanBox] at heq
  | succ n ih =>
    intro st i st' hlen heq
    rw [scanBox] at heq
    split at heq
    · split at heq
      · have h0 := ih _ _ _ (by simpa [List.length_set] using hlen) heq
        exact h0
      · split at heq
        · have h0 := ih _ _ _ (by simpa [List.length_set] using hlen) heq
          exact h0
        · split at heq
          · split at heq
            · have h0 := ih _ _ _ (by simpa [List.length_set] using hlen) heq
              exact h0
            · have h0 := ih _ _ _ (by simpa [List.length_set] using hlen) heq
              exact h0
          · simp at heq
    · simp only [Option.some.injEq, Prod.mk.injEq] at heq
      obtain ⟨-, hst⟩ := heq
      subst hst
      refine ⟨rfl, ?_⟩
      rw [getBox_set_self _ _ _ hlen]

/-! ### Frame and invariant properties of the outer loop -/

/-- The outer loop only writes boxes it is asked to place. -/
lemma planLoop_frame (w : Int) (h : Option Int) :
    ∀ (rem : List BoxId) (st : PlanState) (r : Bool) (st' : PlanState),
    planLoop w h rem st = some (r, st') →
    st'.store.length = st.store.length ∧
    (∀ j, j ∉ rem → getBox st'.store j = getBox st.store j) := by
  intro rem
  induction rem with
  | nil =>
    intro st r st' heq
    simp only [planLoop, Option.some.injEq, Prod.mk.injEq] at heq
    obtain ⟨-, hst⟩ := heq
    subst hst
    exact ⟨rfl, fun j _ => rfl⟩
  | cons bi rest ih =>
    intro st r st' heq
    rw [planLoop] at heq
    split at heq
    · exact absurd heq (by simp)
    · rename_i st1 hscan
      simp only [Option.some.injEq, Prod.mk.injEq] at heq
      obtain ⟨-, hst⟩ := heq
      subst hst
      obtain ⟨hl, hf⟩ := scanBox_frame w h bi _ _ _ _ _ hscan
      refine ⟨hl, fun j hj => ?_⟩
      exact hf j (fun hc => hj (hc ▸ List.mem_cons_self bi rest))
    · rename_i st1 hscan
      obtain ⟨hl1, hf1⟩ := scanBox_frame w h bi _ _ _ _ _ hscan
      obtain ⟨hl2, hf2⟩ := ih _ _ _ heq
      refine ⟨hl2.trans hl1, fun j hj => ?_⟩
      have hj1 : j ≠ bi := fun hc => hj (hc ▸ List.mem_cons_self bi rest)
      have hj2 : j ∉ rest := fun hc => hj (List.mem_cons_of_mem bi hc)
      rw [hf2 j hj2, hf1 j hj1]

/-- Main invariant of a successful `planLoop` run: every requested box
is appended to `mapped` in acceptance order, ends marked and in bounds,
and the final `mapped` list is pairwise non-colliding in the
later-box-checks-earlier-box direction for every box of `remT` (the
run's work list). -/
lemma planLoop_true_inv (w : Int) (h : Option Int) (remT : List BoxId) :
    ∀ (rem : List BoxId) (st st' : PlanState),
    planLoop w h rem st = some (true, st') →
    rem.Nodup →
    (∀ b ∈ rem, b ∉ st.mapped ∧ b < st.store.length) →
    (∀ b ∈ rem, b ∈ remT) →
    List.Pairwise (fun a b => b ∈ remT →
      (getBox st.store b).collides (getBox st.store a).toBox = false)
      st.mapped →
    st'.mapped = st.mapped ++ rem ∧
    (∀ a ∈ rem,
      (getBox st'.store a).is_mapped = true ∧
      is_out_of_bounds w h (getBox st'.store a).uv (getBox st'.store a).size
        = false) ∧
    List.Pairwise (fun a b => b ∈ remT →
      (getBox st'.store b).collides (getBox st'.store a).toBox = false)
      st'.mapped := by
  intro rem
  induction rem with
  | nil =>
    intro st st' heq _ _ _ hpw
    simp only [planLoop, Option.some.injEq, Prod.mk.injEq] at heq
    obtain ⟨-, hst⟩ := heq
    subst hst
    exact ⟨(List.append_nil _).symm, by simp, hpw⟩
  | cons bi rest ih =>
    intro st st' heq hnd hval hsub hpw
    rw [planLoop] at heq
    split at heq
    · exact absurd heq (by simp)
    · exact absurd heq (by simp)
    · rename_i st1 hscan
      have hbi_nm : bi ∉ st.mapped := (hval bi (List.mem_cons_self bi rest)).1
      have hbi_len : bi < st.store.length :=
        (hval bi (List.mem_cons_self bi rest)).2
      obtain ⟨hm1, hmap1, hbnd1, hcol1⟩ :=
        scanBox_true_spec w h bi _ _ _ _ hbi_nm hbi_len hscan
      obtain ⟨hsl, hsf⟩ := scanBox_frame w h bi _ _ _ _ _ hscan
      have hbi_rest : bi ∉ rest := (List.nodup_cons.mp hnd).1
      have hnd' : rest.Nodup := (List.nodup_cons.mp hnd).2
      have hval1 : ∀ b ∈ rest, b ∉ st1.mapped ∧ b < st1.store.length := by
        intro b hb
        obtain ⟨hbm, hbl⟩ := hval b (List.mem_cons_of_mem bi hb)
        refine ⟨?_, by rw [hsl]; exact hbl⟩
        rw [hm1]
        simp only [List.mem_append, List.mem_singleton]
        rintro (hc | hc)
        · exact hbm hc
        · exact hbi_rest (hc ▸ hb)
      have hsub1 : ∀ b ∈ rest, b ∈ remT :=
        fun b hb => hsub b (List.mem_cons_of_mem bi hb)
      have hpw1 : List.Pairwise (fun a b => b ∈ remT →
          (getBox st1.store b).collides (getBox st1.store a).toBox = false)
          st1.mapped := by
        rw [hm1, List.pairwise_append]
        refine ⟨?_, by simp, ?_⟩
        · refine List.Pairwise.imp_of_mem ?_ hpw
          intro a b ha hb hr hbT
          have hna : a ≠ bi := fun hc => hbi_nm (hc ▸ ha)
          have hnb : b ≠ bi := fun hc => hbi_nm (hc ▸ hb)
          rw [hsf b hnb, hsf a hna]
          exact hr hbT
        · intro a ha b hb
          simp only [List.mem_singleton] at hb
          subst hb
          intro _
          exact hcol1 a ha
      obtain ⟨hm2, hok2, hpw2⟩ := ih _ _ heq hnd' hval1 hsub1 hpw1
      obtain ⟨hl2, hf2⟩ := planLoop_frame w h rest st1 _ _ heq
      refine ⟨?_, ?_, hpw2⟩
      · rw [hm2, hm1, List.append_assoc]
        rfl
      · intro a ha
        rcases List.mem_cons.mp ha with rfl | ha'
        · rw [hf2 a hbi_rest]
          exact ⟨hmap1, hbnd1⟩
        · exact hok2 a ha'

/-! ### The processing order: dedup, sort, partition -/

lemma dedupFirst_nodup : ∀ l : List BoxId, (dedupFirst l).Nodup := by
  intro l
  induction l with
  | nil => simp [dedupFirst]
  | cons x xs ih =>
    rw [dedupFirst]
    refine List.nodup_cons.mpr ⟨?_, ih.filter _⟩
    intro hx
    have hne := (List.mem_filter.mp hx).2
    simp at hne

lemma dedupFirst_subset :
    ∀ (l : List BoxId) (y : BoxId), y ∈ dedupFirst l → y ∈ l := by
  intro l
  induction l with
  | nil =>
    intro y hy
    simp [dedupFirst] at hy
  | cons x xs ih =>
    intro y hy
    rw [dedupFirst] at hy
    rcases List.mem_cons.mp hy with rfl | hy'
    · exact List.mem_cons_self _ _
    · exact List.mem_cons_of_mem _ (ih y (List.mem_of_mem_filter hy'))

lemma insertDesc_perm (store : Store) (b : BoxId) :
    ∀ l : List BoxId, (insertDesc store b l).Perm (b :: l) := by
  intro l
  induction l with
  | nil => simp [insertDesc]
  | cons x xs ih =>
    rw [insertDesc]
    split
    · exact List.Perm.refl _
    · exact (ih.cons x).trans (List.Perm.swap b x xs)

lemma sortBoxes_perm_aux (store : Store) :
    ∀ (ids acc : List BoxId),
    (ids.foldl (fun a b => insertDesc store b a) acc).Perm (ids ++ acc) := by
  intro ids
  induction ids with
  | nil => intro acc; simp
  | cons x xs ih =>
    intro acc
    rw [List.foldl_cons]
    refine (ih (insertDesc store x acc)).trans ?_
    refine (List.Perm.append_left xs (insertDesc_perm store x acc)).trans ?_
    exact List.perm_middle

lemma sortBoxes_perm (store : Store) (ids : List BoxId) :
    (sortBoxes store ids).Perm ids := by
  have haux := sortBoxes_perm_aux store ids []
  simpa [sortBoxes] using haux

lemma plan_order_nodup (store : Store) (ids : List BoxId) :
    (plan_order store ids).Nodup :=
  ((sortBoxes_perm store (dedupFirst ids)).symm).nodup (dedupFirst_nodup ids)

lemma plan_order_subset (store : Store) (ids : List BoxId) :
    ∀ b ∈ plan_order store ids, b ∈ ids := by
  intro b hb
  exact dedupFirst_subset ids b
    ((sortBoxes_perm store (dedupFirst ids)).mem_iff.mp hb)

lemma mem_unmappedInit (store : Store) (ids : List BoxId) (b : BoxId)
    (hb : b ∈ unmappedInit store ids) :
    b ∈ ids ∧ (getBox store b).is_mapped = false := by
  obtain ⟨h1, h2⟩ := List.mem_filter.mp hb
  exact ⟨plan_order_subset store ids b h1, by simpa using h2⟩

lemma mem_mappedInit (store : Store) (ids : List BoxId) (b : BoxId)
    (hb : b ∈ mappedInit store ids) :
    (getBox store b).is_mapped = true := by
  simpa using (List.mem_filter.mp hb).2

lemma unmappedInit_nodup (store : Store) (ids : List BoxId) :
    (unmappedInit store ids).Nodup :=
  (plan_order_nodup store ids).filter _

lemma unmappedInit_disjoint (store : Store) (ids : List BoxId) (b : BoxId)
    (hb : b ∈ unmappedInit store ids) : b ∉ mappedInit store ids := by
  intro hc
  have h1 := (mem_unmappedInit store ids b hb).2
  have h2 := mem_mappedInit store ids b hc
  rw [h1] at h2
  cases h2

lemma mappedInit_pairwise_vacuous (store : Store) (ids : List BoxId)
    (f : BoxId → BoxId → Prop) :
    List.Pairwise (fun a b => b ∈ unmappedInit store ids → f a b)
      (mappedInit store ids) := by
  refine List.pairwise_of_forall_mem_list ?_
  intro a _ b hb hbu
  exact absurd hb (unmappedInit_disjoint store ids b hbu)

/-! ### The claims -/

/-- C1 (amended): on a successful `plan_uv` run the boxes placed by the
run are appended to `mapped` in acceptance order after the pre-mapped
boxes, and non-collision is guaranteed in one direction only: each box
placed by the run does not collide (as the caller of `collides`) with
any box that was mapped before it.  The claim's symmetric version fails
because `UvMcCube.collides` is asymmetric (see the counterexample). -/
theorem uvC1_amended (store : Store) (ids : List BoxId) (w : Int)
    (h : Option Int) (st' : PlanState)
    (hvalid : ∀ b ∈ ids, b < store.length)
    (hrun : plan_uv store ids w h = some (true, st')) :
    st'.mapped = mappedInit store ids ++ unmappedInit store ids ∧
    List.Pairwise (fun a b => b ∈ unmappedInit store ids →
      (getBox st'.store b).collides (getBox st'.store a).toBox = false)
      st'.mapped := by
  unfold plan_uv at hrun
  have hinv := planLoop_true_inv w h (unmappedInit store ids)
    (unmappedInit store ids) _ st' hrun
    (unmappedInit_nodup store ids)
    (fun b hb => ⟨unmappedInit_disjoint store ids b hb,
      hvalid b (mem_unmappedInit store ids b hb).1⟩)
    (fun _ hb => hb)
    (mappedInit_pairwise_vacuous store ids _)
  exact ⟨hinv.1, hinv.2.2⟩

/-- C1 witness: a concrete successful run instantiating the amended
theorem. -/
theorem uvC1_amended_witness :
    (planStateOf (plan_uv exStoreB [0] 12 none)).mapped =
      mappedInit exStoreB [0] ++ unmappedInit exStoreB [0] :=
  (uvC1_amended exStoreB [0] 12 none
    (planStateOf (plan_uv exStoreB [0] 12 none)) (by decide) (by decide)).1

/-- C1 counterexample: a successful `plan_uv` run in which two boxes
that were both unmapped on entry and both accepted end up colliding in
one direction: box 1 (wide flat cube, placed at `(0,0)`) collides with
box 2 (tall narrow cube, placed at `(21,0)`), while box 2 does not
collide with box 1.  So "collides between them is false in both
directions" is refuted. -/
theorem uvC1_counterexample :
    (getBox exStoreA 1).is_mapped = false ∧
    (getBox exStoreA 2).is_mapped = false ∧
    (plan_uv exStoreA [0, 1, 2] 31 none).map (fun r =>
      (r.1, (getBox r.2.store 1).uv, (getBox r.2.store 2).uv,
       (getBox r.2.store 1).collides (getBox r.2.store 2).toBox,
       (getBox r.2.store 2).collides (getBox r.2.store 1).toBox))
      = some (true, (0, 0), (21, 0), true, false) := by
  refine ⟨rfl, rfl, ?_⟩
  decide

/-- C2: on a successful `plan_uv` run, every box that was unmapped on
entry (and hence accepted) ends inside the atlas: `0 ≤ u`, `0 ≤ v`,
`u + bounding_width ≤ width`, and `v + bounding_height ≤ height`
whenever a height bound is given. -/
theorem uvC2 (store : Store) (ids : List BoxId) (w : Int) (h : Option Int)
    (st' : PlanState)
    (hvalid : ∀ b ∈ ids, b < store.length)
    (hrun : plan_uv store ids w h = some (true, st')) :
    ∀ a ∈ unmappedInit store ids,
      0 ≤ (getBox st'.store a).uv.1 ∧
      0 ≤ (getBox st'.store a).uv.2 ∧
      (getBox st'.store a).uv.1 + (getBox st'.store a).size.1 ≤ w ∧
      (∀ hv, h = some hv →
        (getBox st'.store a).uv.2 + (getBox st'.store a).size.2 ≤ hv) := by
  intro a ha
  unfold plan_uv at hrun
  have hinv := planLoop_true_inv w h (unmappedInit store ids)
    (unmappedInit store ids) _ st' hrun
    (unmappedInit_nodup store ids)
    (fun b hb => ⟨unmappedInit_disjoint store ids b hb,
      hvalid b (mem_unmappedInit store ids b hb).1⟩)
    (fun _ hb => hb)
    (mappedInit_pairwise_vacuous store ids _)
  exact (is_out_of_bounds_eq_false_iff _ _ _ _).mp (hinv.2.1 a ha).2

/-- C2 witness: the bounds hold for the single box of a concrete
successful run. -/
theorem uvC2_witness :
    0 ≤ (getBox (planStateOf (plan_uv exStoreB [0] 16 none)).store 0).uv.1 ∧
    0 ≤ (getBox (planStateOf (plan_uv exStoreB [0] 16 none)).store 0).uv.2 ∧
    (getBox (planStateOf (plan_uv exStoreB [0] 16 none)).store 0).uv.1 +
      (getBox (planStateOf (plan_uv exStoreB [0] 16 none)).store 0).size.1
      ≤ 16 := by
  have hb := uvC2 exStoreB [0] 16 none
    (planStateOf (plan_uv exStoreB [0] 16 none)) (by decide) (by decide)
    0 (by decide)
  exact ⟨hb.1, hb.2.1, hb.2.2.1⟩

/-- C4: the packer is deterministic — two `plan_uv` calls on the same
store, box list and bounds return the same result (the embedding is a
pure function of its inputs; the model fixes the only unspecified part
of the source, the iteration order of `list(set(boxes))`). -/
theorem uvC4 (store : Store) (ids : List BoxId) (w : Int) (h : Option Int)
    (r₁ r₂ : Option (Bool × PlanState))
    (h₁ : plan_uv store ids w h = r₁) (h₂ : plan_uv store ids w h = r₂) :
    r₁ = r₂ :=
  h₁.symm.trans h₂

/-- C4 witness: determinism instantiated on a concrete run. -/
theorem uvC4_witness :
    plan_uv exStoreD [0] 9 none = plan_uv exStoreD [0] 9 none :=
  uvC4 exStoreD [0] 9 none _ _ rfl rfl

/-- C6: boxes that enter `plan_uv` already mapped are never written:
whatever the outcome, their whole store entry (in particular their
`(u, v)` position) is unchanged. -/
theorem uvC6 (store : Store) (ids : List BoxId) (w : Int) (h : Option Int)
    (r : Bool) (st' : PlanState)
    (hrun : plan_uv store ids w h = some (r, st')) :
    ∀ i, (getBox store i).is_mapped = true →
      getBox st'.store i = getBox store i := by
  intro i hi
  unfold plan_uv at hrun
  obtain ⟨-, hf⟩ := planLoop_frame w h _ _ _ _ hrun
  refine hf i ?_
  intro hc
  have hfalse := (mem_unmappedInit store ids i hc).2
  rw [hi] at hfalse
  cases hfalse

/-- C6 witness: a pre-mapped box keeps its position on a concrete run. -/
theorem uvC6_witness :
    getBox (planStateOf (plan_uv exStoreD [0] 7 none)).store 0
      = getBox exStoreD 0 :=
  uvC6 exStoreD [0] 7 none true
    (planStateOf (plan_uv exStoreD [0] 7 none)) (by decide) 0 (by decide)

/-- C7: if a box exhausts the suggestion queue (the inner scan returns
`false`), that box is reset to `(0, 0)`, `plan_uv` returns `false`
immediately, and no remaining box is touched. -/
theorem uvC7 (w : Int) (h : Option Int) (bi : BoxId) (rest : List BoxId)
    (st st1 : PlanState) (hlen : bi < st.store.length)
    (hfail : scanBox w h bi (scanFuel st) st 0 = some (false, st1)) :
    planLoop w h (bi :: rest) st = some (false, st1) ∧
    (getBox st1.store bi).uv = (0, 0) ∧
    (∀ j, j ≠ bi → getBox st1.store j = getBox st.store j) := by
  obtain ⟨-, huv⟩ := scanBox_false_spec w h bi _ _ _ _ hlen hfail
  obtain ⟨-, hf⟩ := scanBox_frame w h bi _ _ _ _ _ hfail
  refine ⟨?_, huv, hf⟩
  rw [planLoop, hfail]

/-- C7 witness: the spec's scenario — a single cube of bounding width
10 with `max_width = 8`: `plan_uv` returns `false` and the box ends at
`(0, 0)`. -/
theorem uvC7_witness :
    plan_uv exStoreC [0] 8 none =
      some (false, planStateOf (plan_uv exStoreC [0] 8 none)) ∧
    (getBox (planStateOf (plan_uv exStoreC [0] 8 none)).store 0).uv
      = (0, 0) := by
  refine ⟨by decide, ?_⟩
  exact (uvC7 8 none 0 []
    { store := exStoreC, suggestions := [((0, 0), UvCorner.TOP_LEFT)],
      authors := [], mapped := mappedInit exStoreC [0] }
    (planStateOf (plan_uv exStoreC [0] 8 none))
    (by decide) (by decide)).2.1

/-- C3 (amended): a suggestion whose anchor fails the bounds guard is
removed from the queue at that scan step, but the guard uses the strict
comparisons `u < 0`, `v < 0`, `u > max_width` and (when bounded)
`v > max_height` — not `u ≥ max_width` — so an anchor with
`u = max_width` is kept. -/
theorem uvC3_amended (w : Int) (h : Option Int) (bi : BoxId) (fuel : Nat)
    (st : PlanState) (i : Nat) (s : Suggestion)
    (hs : st.suggestions.get? i = some s) :
    (is_out_of_bounds w h s.1 (0, 0) = true ↔
      (s.1.1 < 0 ∨ s.1.2 < 0 ∨ s.1.1 > w ∨
        ∃ hv, h = some hv ∧ s.1.2 > hv)) ∧
    (is_out_of_bounds w h s.1 (0, 0) = true →
      scanBox w h bi (fuel + 1) st i =
        scanBox w h bi fuel
          { st with
            store := st.store.set bi
              ((getBox st.store bi).apply_suggestion s),
            suggestions := st.suggestions.eraseIdx i } i) := by
  obtain ⟨hi, hget⟩ := List.get?_eq_some.mp hs
  constructor
  · cases h <;> simp [is_out_of_bounds] <;> omega
  · intro hoob
    rw [scanBox, dif_pos hi, hget, if_pos hoob]

/-- C3 counterexample: with `max_width = 8`, a suggestion anchored at
`u = 8` (equal to the width bound) is *not* discarded: the scan leaves
it in the queue, refuting "a suggestion whose anchor u-coordinate
equals max_width is discarded". -/
theorem uvC3_counterexample :
    is_out_of_bounds 8 none (8, 0) (0, 0) = false ∧
    (scanBox 8 none 0 5 exScanSt 0).map (fun r => (r.1, r.2.suggestions))
      = some (false, [((8, 0), UvCorner.TOP_LEFT)]) := by
  exact ⟨rfl, by decide⟩

/-- C3 witness: the amended characterization instantiated at the
boundary anchor `u = max_width = 8` (both sides false). -/
theorem uvC3_amended_witness :
    is_out_of_bounds 8 none (8, 0) (0, 0) = true ↔
      ((8 : Int) < 0 ∨ (0 : Int) < 0 ∨ (8 : Int) > 8 ∨
        ∃ hv, (none : Option Int) = some hv ∧ (0 : Int) > hv) :=
  (uvC3_amended 8 none 0 4 exScanSt 0 ((8, 0), UvCorner.TOP_LEFT)
    (by decide)).1

/-- C8: after `apply_suggestion`, reading back the cell of the corner
named by the suggestion's anchor yields exactly the suggestion's
candidate position (e.g. `(u + width - 1, v + height - 1)` for
`BOTTOM_RIGHT`). -/
theorem uvC8 :
    ∀ (b : UvBox) (s : Suggestion),
    cornerCell (b.apply_suggestion s) s.2 = s.1 := by
  intro b s
  obtain ⟨p, c⟩ := s
  cases c <;>
    simp only [UvBox.apply_suggestion, cornerCell, Prod.ext_iff] <;>
    constructor <;> ring_nf

/-- C9 counterexample: constructing a `UvBox` with non-positive width,
or a `UvMcCube` with non-positive depth, does not fail — it produces an
ordinary, usable object carrying the degenerate size. -/
theorem uvC9_counterexample :
    (mkUvBox (0, 5) none).size = (0, 5) ∧
    (mkUvBox (0, 5) none).is_mapped = false ∧
    (mkUvBox (0, 5) none).collides (mkUvBox (0, 5) none) = false ∧
    (mkUvMcCube 0 (-1) 2 none).size = (-2, 1) := by
  decide

/-- C9 (amended): the constructors perform no validation at all — for
every size, including non-positive ones, they return an object with
exactly the given dimensions, the default or given position, and the
corresponding `is_mapped` flag; no failure path exists. -/
theorem uvC9_amended :
    ∀ (sz : Int × Int) (uv : Option (Int × Int)) (w d hgt : Int),
    (mkUvBox sz uv).size = sz ∧
    (mkUvBox sz uv).is_mapped = uv.isSome ∧
    (mkUvBox sz uv).uv = uv.getD (0, 0) ∧
    (mkUvMcCube w d hgt uv).width = w ∧
    (mkUvMcCube w d hgt uv).depth = d ∧
    (mkUvMcCube w d hgt uv).height = hgt ∧
    (mkUvMcCube w d hgt uv).is_mapped = uv.isSome ∧
    (mkUvMcCube w d hgt uv).uv = uv.getD (0, 0) := by
  intro sz uv w d hgt
  cases uv <;> simp [mkUvBox, mkUvMcCube]

/-- C10: composite-box collision is not symmetric — a wide flat cube at
`(0,0)` collides with a tall narrow cube at `(21,0)` while the reverse
call reports no collision (all dimensions positive). -/
theorem uvC10 :
    (⟨10, 1, 1, (0, 0), true⟩ : UvMcCube).collides
      (⟨1, 4, 10, (21, 0), true⟩ : UvMcCube).toBox = true ∧
    (⟨1, 4, 10, (21, 0), true⟩ : UvMcCube).collides
      (⟨10, 1, 1, (0, 0), true⟩ : UvMcCube).toBox = false ∧
    (0 : Int) < 10 ∧ (0 : Int) < 1 ∧ (0 : Int) < 4 := by
  decide

/-! ### Facts about the grouping adapter -/

lemma getElem?_append_cons {α : Type} (l₁ : List α) (a : α) (l₂ : List α) :
    (l₁ ++ a :: l₂)[l₁.length]? = some a := by
  rw [List.getElem?_append_right (le_refl _)]
  simp

lemma getElem?_flat {α : Type} (A : List α) (a : α) (B : List α) (n : Nat)
    (hn : n = A.length) : (A ++ a :: B)[n]? = some a := by
  subst hn
  exact getElem?_append_cons A a B

lemma lookupGroup_append_some (groups ext : Groups) (g : String)
    (dims : Int × Int × Int) (id : BoxId)
    (h : lookupGroup groups g dims = some id) :
    lookupGroup (groups ++ ext) g dims = some id := by
  unfold lookupGroup at h ⊢
  obtain ⟨p, hp, hmap⟩ := Option.map_eq_some'.mp h
  rw [List.find?_append, hp]
  simpa using hmap

lemma processDesc_groups_mono (re : Bool) (st : GroupState) (d : CubeDesc)
    (g : String) (dims : Int × Int × Int) (id : BoxId)
    (h : lookupGroup st.groups g dims = some id) :
    lookupGroup (processDesc re st d).groups g dims = some id := by
  unfold processDesc
  split
  · exact h
  · split
    · split
      · exact h
      · exact lookupGroup_append_some _ _ _ _ _ h
    · exact h

lemma processDesc_result_one (re : Bool) (st : GroupState) (d : CubeDesc) :
    ∃ e, (processDesc re st d).result = st.result ++ [e] := by
  unfold processDesc
  split
  · exact ⟨_, rfl⟩
  · split
    · split
      · exact ⟨_, rfl⟩
      · exact ⟨_, rfl⟩
    · exact ⟨_, rfl⟩

/-- Processing a descriptor whose existing-UV path is not taken and
which carries a group key: the result gains exactly one entry, the
entry's box identity is registered for the descriptor's group and size,
and if the group already had an identity for that size, the existing
one is reused. -/
lemma processDesc_group_key (re : Bool) (st : GroupState) (d : CubeDesc)
    (g : String)
    (hg : d.group_key = some g)
    (hne : re = true → d.existing_uv = none) :
    ∃ id, (processDesc re st d).result = st.result ++ [(d.name, id)] ∧
      lookupGroup (processDesc re st d).groups g
        (d.width, d.depth, d.height) = some id ∧
      (∀ id0,
        lookupGroup st.groups g (d.width, d.depth, d.height) = some id0 →
        id = id0) := by
  have hb : (re && d.existing_uv.isSome) = false := by
    cases hre : re
    · rfl
    · rw [hne hre]
      rfl
  cases hlk : lookupGroup st.groups g (d.width, d.depth, d.height) with
  | some id0 =>
    refine ⟨id0, ?_, ?_, ?_⟩
    · simp [processDesc, hb, hg, hlk]
    · simp [processDesc, hb, hg, hlk]
    · intro id1 h1
      exact Option.some.inj h1
  | none =>
    have hfind : st.groups.find?
        (fun p => decide (p.1 = (g, (d.width, d.depth, d.height)))) = none := by
      unfold lookupGroup at hlk
      exact Option.map_eq_none'.mp hlk
    refine ⟨st.store.length, ?_, ?_, ?_⟩
    · simp [processDesc, hb, hg, hlk]
    · simp only [processDesc, hb, hg, hlk, Bool.false_eq_true, if_false]
      unfold lookupGroup
      rw [List.find?_append, hfind]
      rw [List.find?_cons_of_pos _ (by simp)]
      rfl
    · intro id1 h1
      cases h1

lemma foldl_groups_mono (re : Bool) (descs : List CubeDesc) :
    ∀ (st : GroupState) (g : String) (dims : Int × Int × Int) (id : BoxId),
    lookupGroup st.groups g dims = some id →
    lookupGroup (descs.foldl (processDesc re) st).groups g dims = some id := by
  induction descs with
  | nil =>
    intro st g dims id h
    exact h
  | cons d ds ih =>
    intro st g dims id h
    exact ih _ g dims id (processDesc_groups_mono re st d g dims id h)

lemma foldl_result_grows (re : Bool) (descs : List CubeDesc) :
    ∀ st : GroupState,
    ∃ tail, (descs.foldl (processDesc re) st).result = st.result ++ tail ∧
      tail.length = descs.length := by
  induction descs with
  | nil =>
    intro st
    exact ⟨[], by simp, rfl⟩
  | cons d ds ih =>
    intro st
    obtain ⟨e, he⟩ := processDesc_result_one re st d
    obtain ⟨tl, htl, hlen⟩ := ih (processDesc re st d)
    refine ⟨[e] ++ tl, ?_, by simp [hlen]⟩
    rw [List.foldl_cons, htl, he, List.append_assoc]

/-- C5 (amended): provided the existing-UV path is not taken for either
descriptor (`read_existing_uvs` false or no `existing_uv` present), two
descriptors with the same group key and identical `(width, depth,
height)` resolve to the same store identity — the very same `UvMcCube`
instance — so they necessarily share every later placement. -/
theorem uvC5_amended (re : Bool) (pre mid post : List CubeDesc)
    (d₁ d₂ : CubeDesc) (g : String)
    (hg₁ : d₁.group_key = some g) (hg₂ : d₂.group_key = some g)
    (hw : d₂.width = d₁.width) (hd : d₂.depth = d₁.depth)
    (hh : d₂.height = d₁.height)
    (he₁ : re = true → d₁.existing_uv = none)
    (he₂ : re = true → d₂.existing_uv = none) :
    ∃ id,
      (get_uv_mc_cubes re
        (pre ++ d₁ :: (mid ++ d₂ :: post))).result[pre.length]?
        = some (d₁.name, id) ∧
      (get_uv_mc_cubes re
        (pre ++ d₁ :: (mid ++ d₂ :: post))).result[pre.length + 1 + mid.length]?
        = some (d₂.name, id) := by
  unfold get_uv_mc_cubes
  rw [List.foldl_append, List.foldl_cons, List.foldl_append, List.foldl_cons]
  obtain ⟨tail0, htail0, hlen0⟩ :=
    foldl_result_grows re pre (⟨[], [], []⟩ : GroupState)
  obtain ⟨ida, hres2, hlk2, -⟩ :=
    processDesc_group_key re (pre.foldl (processDesc re) ⟨[], [], []⟩) d₁ g
      hg₁ he₁
  obtain ⟨tl, hres3, hlen3⟩ :=
    foldl_result_grows re mid
      (processDesc re (pre.foldl (processDesc re) ⟨[], [], []⟩) d₁)
  have hlk3 := foldl_groups_mono re mid _ g _ ida hlk2
  obtain ⟨id2, hres4, -, huniq⟩ :=
    processDesc_group_key re
      (mid.foldl (processDesc re)
        (processDesc re (pre.foldl (processDesc re) ⟨[], [], []⟩) d₁))
      d₂ g hg₂ he₂
  have hid2 : id2 = ida := by
    refine huniq ida ?_
    rw [hw, hd, hh]
    exact hlk3
  rw [hid2] at hres4
  obtain ⟨tl2, hres5, -⟩ :=
    foldl_result_grows re post
      (processDesc re
        (mid.foldl (processDesc re)
          (processDesc re (pre.foldl (processDesc re) ⟨[], [], []⟩) d₁))
        d₂)
  refine ⟨ida, ?_, ?_⟩
  · rw [hres5, hres4, hres3, hres2, htail0]
    simp only [List.append_assoc, List.nil_append, List.singleton_append]
    exact getElem?_flat _ _ _ _ (by simp [hlen0])
  · rw [hres5, hres4, hres3, hres2, htail0]
    rw [List.append_assoc, List.singleton_append]
    exact getElem?_flat _ _ _ _ (by simp [hlen0, hlen3]; omega)

/-- C5 counterexample: with `read_existing_uvs = true`, two descriptors
sharing group key `"g"` and size `(1,1,1)` — the first carrying
`existing_uv = (5,5)` — resolve to two *different* cube instances
(store identities 0 and 1), and after packing their placements differ:
`(5,5)` versus `(0,0)`.  This refutes the unconditional claim. -/
theorem uvC5_counterexample :
    ((get_uv_mc_cubes true exDescsA).result.map Prod.snd = [0, 1]) ∧
    ((plan_uv (get_uv_mc_cubes true exDescsA).store [0, 1] 64 none).map
      (fun r => (r.1, (getBox r.2.store 0).uv, (getBox r.2.store 1).uv))
      = some (true, (5, 5), (0, 0))) := by
  exact ⟨by decide, by decide⟩

/-- C5 witness: two grouped descriptors of equal size whose existing-UV
path is not taken resolve to the same box identity. -/
theorem uvC5_amended_witness :
    ((get_uv_mc_cubes false exDescsB).result[0]?).map Prod.snd
      = ((get_uv_mc_cubes false exDescsB).result[1]?).map Prod.snd := by
  obtain ⟨id0, h1, h2⟩ := uvC5_amended false [] [] []
    ⟨"a", 3, 3, 3, some "A", none⟩ ⟨"b", 3, 3, 3, some "A", none⟩ "A"
    rfl rfl rfl rfl rfl (fun hc => Bool.noConfusion hc)
    (fun hc => Bool.noConfusion hc)
  have h1x : (get_uv_mc_cubes false exDescsB).result[0]? = some ("a", id0) := h1
  have h2x : (get_uv_mc_cubes false exDescsB).result[1]? = some ("b", id0) := h2
  rw [h1x, h2x]
  rfl
